import Mathlib

/-!
Shallow embedding of the storage layer of the jewelry e-commerce repository
(`DatabaseStorage` over the Drizzle schema).  Tables are lists of row records,
the database is a record of tables, and each repository operation is a pure
function from the database (plus the inputs the runtime supplies: fresh ids,
the current clock) to its result and the successor database.

Monetary `decimal` columns are modeled as exact rationals; `timestamp` columns
that are only compared for ordering are modeled as naturals.  JavaScript
semantics that the source relies on (string truthiness, `String(n)`,
`padStart`, `Date` month windows) are embedded explicitly below.
-/

namespace Storage

/-! ### JavaScript helper semantics -/

/-- Truthiness of a nullable string in JavaScript: `null`/`undefined` and the
empty string are falsy, every other string is truthy. -/
def jsTruthyStr : Option String → Bool
  | none => false
  | some s => !(s == "")

/-- `s.padStart(n, c)` for a single-character pad: prepend copies of `c` until
the length is at least `n` (a no-op when `s` is already long enough). -/
def padStart (s : String) (n : Nat) (c : Char) : String :=
  String.mk (List.replicate (n - s.length) c) ++ s

/-- The decimal digit character for `d ∈ [0, 9]`. -/
def digitChar : Nat → Char
  | 0 => '0' | 1 => '1' | 2 => '2' | 3 => '3' | 4 => '4'
  | 5 => '5' | 6 => '6' | 7 => '7' | 8 => '8' | _ => '9'

/-- Numeric value of a decimal digit character (partial inverse of
`digitChar`; non-digit characters are irrelevant to the development). -/
def charVal : Char → Nat
  | '0' => 0 | '1' => 1 | '2' => 2 | '3' => 3 | '4' => 4
  | '5' => 5 | '6' => 6 | '7' => 7 | '8' => 8 | _ => 9

/-- Decimal digit list of a natural number, most significant digit first and
with no leading zeros — the digits of JavaScript `String(n)`. -/
def natDigits (n : Nat) : List Char :=
  if n < 10 then [digitChar n]
  else natDigits (n / 10) ++ [digitChar (n % 10)]
  decreasing_by exact Nat.div_lt_self (by omega) (by omega)

/-- JavaScript `String(n)` for a natural number. -/
def natToString (n : Nat) : String := String.mk (natDigits n)

lemma charVal_digitChar {d : Nat} (h : d < 10) : charVal (digitChar d) = d := by
  interval_cases d <;> rfl

/-- Folding the base-10 accumulator over the digit list of `n` recovers `n`
(shifted by the incoming accumulator). -/
lemma foldl_natDigits (n : Nat) : ∀ a : Nat,
    List.foldl (fun a c => 10 * a + charVal c) a (natDigits n) =
      a * 10 ^ (natDigits n).length + n := by
  induction n using Nat.strong_induction_on with
  | _ n ih =>
    intro a
    rw [natDigits]
    by_cases h : n < 10
    · simp only [if_pos h, List.foldl_cons, List.foldl_nil, List.length_cons,
        List.length_nil, charVal_digitChar h]
      ring
    · have hd : n / 10 < n := Nat.div_lt_self (by omega) (by omega)
      simp only [if_neg h, List.foldl_append, List.foldl_cons, List.foldl_nil,
        List.length_append, List.length_cons, List.length_nil]
      rw [ih (n / 10) hd a, charVal_digitChar (Nat.mod_lt n (by omega))]
      have := Nat.div_add_mod n 10
      ring_nf
      omega

/-- Leading `'0'` characters do not change the recovered value. -/
lemma foldl_replicate_zero (k : Nat) :
    List.foldl (fun a c => 10 * a + charVal c) 0 (List.replicate k '0') = 0 := by
  induction k with
  | zero => rfl
  | succ k ih => simpa [List.replicate_succ, charVal] using ih

/-- `padStart (String n) w '0'` is injective in `n`: the numeric value can be
read back off the padded digit string. -/
lemma padStart_natToString_inj {w m n : Nat}
    (h : padStart (natToString m) w '0' = padStart (natToString n) w '0') :
    m = n := by
  have hdata := congrArg String.data h
  simp only [padStart, natToString, String.data_append] at hdata
  have hm := congrArg (List.foldl (fun a c => 10 * a + charVal c) 0) hdata
  rw [List.foldl_append, List.foldl_append, foldl_replicate_zero,
    foldl_replicate_zero, foldl_natDigits, foldl_natDigits] at hm
  simpa using hm

/-- Appending to a fixed string on the left is injective. -/
lemma string_append_right_inj {s a b : String} (h : s ++ a = s ++ b) : a = b := by
  have := congrArg String.data h
  rw [String.data_append, String.data_append] at this
  exact String.ext (List.append_cancel_left this)

/-! ### JavaScript `Date` model

A `Date` is modeled as a calendar month (`year`, 0-based `month` as returned
by `getMonth()`) together with the millisecond offset inside that month.
Chronological order is lexicographic on `(year, month, ms)`. -/

structure JSDate where
  year : Nat
  month : Nat
  ms : Nat
  deriving Repr, DecidableEq

/-- Gregorian leap-year rule (as implemented by JavaScript `Date`). -/
def isLeapYear (y : Nat) : Bool :=
  (y % 4 == 0 && !(y % 100 == 0)) || (y % 400 == 0)

/-- Days in 0-based month `m` of year `y`. -/
def daysInMonth (y m : Nat) : Nat :=
  if m == 1 then (if isLeapYear y then 29 else 28)
  else if m == 3 || m == 5 || m == 8 || m == 10 then 30
  else 31

/-- Length of a month in milliseconds. -/
def monthMs (y m : Nat) : Nat := daysInMonth y m * 86400000

/-- A date is well formed when its offset lies inside its month. -/
def JSDate.msValid (d : JSDate) : Prop := d.ms < monthMs d.year d.month

instance (d : JSDate) : Decidable d.msValid :=
  inferInstanceAs (Decidable (d.ms < monthMs d.year d.month))

/-- Chronological `≤` on dates (lexicographic on year, month, offset). -/
def JSDate.leb (a b : JSDate) : Bool :=
  decide (a.year < b.year ∨ (a.year = b.year ∧
    (a.month < b.month ∨ (a.month = b.month ∧ a.ms ≤ b.ms))))

/-- `new Date(year, month, 1)`: the first millisecond of `now`'s month. -/
def startOfMonth (now : JSDate) : JSDate := ⟨now.year, now.month, 0⟩

/-- `new Date(year, month + 1, 0, 23, 59, 59, 999)`: JavaScript day-0
overflow yields the last day of `now`'s month, so this is its last
millisecond. -/
def endOfMonth (now : JSDate) : JSDate :=
  ⟨now.year, now.month, monthMs now.year now.month - 1⟩

/-- The `gte(createdAt, startOfMonth) ∧ lte(createdAt, endOfMonth)` window
used by `createEstimate`. -/
def inMonthWindow (now d : JSDate) : Bool :=
  (startOfMonth now).leb d && d.leb (endOfMonth now)

/-- For a well-formed date the query window is exactly "same calendar
month". -/
lemma inMonthWindow_iff {now d : JSDate} (hd : d.msValid) :
    inMonthWindow now d = true ↔ d.year = now.year ∧ d.month = now.month := by
  have hpos : 0 < monthMs d.year d.month := by
    unfold monthMs daysInMonth
    split <;> split <;> omega
  unfold JSDate.msValid at hd
  simp only [inMonthWindow, JSDate.leb, startOfMonth, endOfMonth,
    Bool.and_eq_true, decide_eq_true_eq]
  constructor
  · rintro ⟨h1, h2⟩
    exact ⟨by omega, by omega⟩
  · rintro ⟨hy, hm⟩
    have hms : monthMs now.year now.month = monthMs d.year d.month := by
      rw [hy, hm]
    exact ⟨Or.inr ⟨hy.symm, Or.inr ⟨hm.symm, Nat.zero_le _⟩⟩,
      Or.inr ⟨hy, Or.inr ⟨hm, by omega⟩⟩⟩

/-! ### Row types

Each structure embeds the columns of the corresponding `pgTable` that are read
or written by at least one modeled operation; columns that no modeled
operation touches (images, barcode metadata, customer contact fields, …) are
omitted.  Nullable columns are `Option`s, `decimal` columns are `ℚ`,
`timestamp` columns used only for ordering are `Nat`. -/

structure User where
  id : String
  email : String
  password : String
  name : String
  phone : Option String
  role : String
  stripeCustomerId : Option String
  stripeSubscriptionId : Option String
  otpCode : Option String
  otpExpiry : Option Nat
  otpVerified : Bool
  deriving Repr, DecidableEq

structure Product where
  id : String
  name : String
  description : String
  category : String
  subCategory : Option String
  priceInr : ℚ
  priceBhd : ℚ
  stock : Int
  isActive : Bool
  isFeatured : Bool
  createdAt : Nat
  deriving Repr, DecidableEq

/-- A denormalized bill/order line item (all fields are strings in the
source's `BillItem` type and are persisted verbatim). -/
structure BillItem where
  productId : String
  productName : String
  quantity : Nat
  priceInr : String
  priceBhd : String
  grossWeight : String
  netWeight : String
  makingCharges : String
  discount : String
  sgst : String
  cgst : String
  vat : String
  total : String
  deriving Repr, DecidableEq

structure Bill where
  id : String
  customerName : String
  currency : String
  subtotal : ℚ
  makingCharges : ℚ
  gst : ℚ
  vat : ℚ
  discount : ℚ
  total : ℚ
  paidAmount : ℚ
  items : List BillItem
  createdAt : Nat
  updatedAt : Nat
  deriving Repr, DecidableEq

structure Estimate where
  id : String
  quotationNo : String
  customerName : String
  customerPhone : String
  productName : String
  totalAmount : ℚ
  validUntil : JSDate
  status : String
  createdAt : JSDate
  deriving Repr, DecidableEq

structure Category where
  id : String
  name : String
  slug : String
  parentId : Option String
  displayOrder : Int
  isActive : Bool
  createdAt : Nat
  updatedAt : Nat
  deriving Repr, DecidableEq

structure HomeSection where
  id : String
  title : String
  subtitle : Option String
  layoutType : String
  isActive : Bool
  displayOrder : Int
  createdAt : Nat
  updatedAt : Nat
  deriving Repr, DecidableEq

structure HomeSectionItem where
  id : String
  sectionId : String
  productId : String
  displayName : Option String
  displayPrice : Option String
  displayPriceInr : Option String
  displayPriceBhd : Option String
  position : Int
  size : String
  createdAt : Nat
  deriving Repr, DecidableEq

/-- The persistent store: one list of rows per table. -/
structure DB where
  users : List User
  products : List Product
  bills : List Bill
  estimates : List Estimate
  categories : List Category
  homeSections : List HomeSection
  homeSectionItems : List HomeSectionItem
  deriving Repr, DecidableEq

/-! ### Generic SQL helpers -/

/-- `UPDATE tbl SET … WHERE hit RETURNING *`: first component is the new
table contents, second is the list of updated rows (the `RETURNING` set). -/
def runUpdate (tbl : List α) (hit : α → Bool) (patch : α → α) :
    List α × List α :=
  (tbl.map fun r => if hit r then patch r else r, (tbl.filter hit).map patch)

lemma runUpdate_returning_nil {tbl : List α} {hit : α → Bool} {patch : α → α}
    (h : ∀ r ∈ tbl, hit r = false) : (runUpdate tbl hit patch).2 = [] := by
  simp only [runUpdate]
  rw [List.filter_eq_nil_iff.mpr (by simpa using h)]
  rfl

/-! ### User operations -/

/-- `getUserByEmail`: first row whose `email` matches, else absent. -/
def getUserByEmail (db : DB) (email : String) : Option User :=
  (db.users.filter fun u => decide (u.email = email)).head?

/-- `authenticateUser`: look up by email, then verify the password against
the stored hash.  `bcryptCompare` stands for `bcrypt.compare`, supplied as a
parameter since it is an external library function. -/
def authenticateUser (bcryptCompare : String → String → Bool) (db : DB)
    (email password : String) : Option User :=
  match getUserByEmail db email with
  | none => none
  | some user => if bcryptCompare password user.password then some user else none

/-- `updateStripeCustomerId`. -/
def updateStripeCustomerId (db : DB) (userId customerId : String) :
    Option User × DB :=
  let u := runUpdate db.users (fun r => decide (r.id = userId))
    (fun r => { r with stripeCustomerId := some customerId })
  (u.2.head?, { db with users := u.1 })

/-- `updateUserStripeInfo`. -/
def updateUserStripeInfo (db : DB) (userId customerId subscriptionId : String) :
    Option User × DB :=
  let u := runUpdate db.users (fun r => decide (r.id = userId))
    (fun r => { r with stripeCustomerId := some customerId,
                       stripeSubscriptionId := some subscriptionId })
  (u.2.head?, { db with users := u.1 })

/-- `updateUserOtp`: set code and expiry, reset `otpVerified`. -/
def updateUserOtp (db : DB) (userId otpCode : String) (otpExpiry : Nat) :
    Option User × DB :=
  let u := runUpdate db.users (fun r => decide (r.id = userId))
    (fun r => { r with otpCode := some otpCode, otpExpiry := some otpExpiry,
                       otpVerified := false })
  (u.2.head?, { db with users := u.1 })

/-- `updateUserOtpVerified`. -/
def updateUserOtpVerified (db : DB) (userId : String) (verified : Bool) :
    Option User × DB :=
  let u := runUpdate db.users (fun r => decide (r.id = userId))
    (fun r => { r with otpVerified := verified })
  (u.2.head?, { db with users := u.1 })

/-- `updateUserPassword`: re-hash (`bcryptHash` stands for `bcrypt.hash . 10`)
and replace. -/
def updateUserPassword (bcryptHash : String → String) (db : DB)
    (userId newPassword : String) : Option User × DB :=
  let u := runUpdate db.users (fun r => decide (r.id = userId))
    (fun r => { r with password := bcryptHash newPassword })
  (u.2.head?, { db with users := u.1 })

/-- `clearUserOtp`: null code and expiry, reset `otpVerified`. -/
def clearUserOtp (db : DB) (userId : String) : Option User × DB :=
  let u := runUpdate db.users (fun r => decide (r.id = userId))
    (fun r => { r with otpCode := none, otpExpiry := none, otpVerified := false })
  (u.2.head?, { db with users := u.1 })

/-! ### Product operations -/

/-- `ORDER BY createdAt DESC`. -/
def createdDesc (a b : Product) : Prop := b.createdAt ≤ a.createdAt

instance : DecidableRel createdDesc := fun a b =>
  inferInstanceAs (Decidable (b.createdAt ≤ a.createdAt))

/-- `getAllProducts`: `WHERE isActive = true ORDER BY createdAt DESC`. -/
def getAllProducts (db : DB) : List Product :=
  List.insertionSort createdDesc
    (db.products.filter fun p => decide (p.isActive = true))

/-- `getProduct`: `WHERE id = ? AND isActive = true`, first row or absent. -/
def getProduct (db : DB) (id : String) : Option Product :=
  (db.products.filter fun p => decide (p.id = id ∧ p.isActive = true)).head?

/-- `getProductsByCategory`: `WHERE category = ? AND isActive = true ORDER BY
createdAt DESC`. -/
def getProductsByCategory (db : DB) (category : String) : List Product :=
  List.insertionSort createdDesc
    (db.products.filter fun p => decide (p.category = category ∧ p.isActive = true))

/-- `Partial<InsertProduct>` restricted to the embedded columns: absent
fields leave the row unchanged. -/
structure ProductPatch where
  name : Option String := none
  description : Option String := none
  category : Option String := none
  subCategory : Option String := none
  priceInr : Option ℚ := none
  priceBhd : Option ℚ := none
  stock : Option Int := none
  isActive : Option Bool := none
  isFeatured : Option Bool := none
  deriving Repr, DecidableEq

/-- Drizzle `set` semantics for a partial product patch. -/
def applyProductPatch (patch : ProductPatch) (p : Product) : Product :=
  { p with
    name := patch.name.getD p.name
    description := patch.description.getD p.description
    category := patch.category.getD p.category
    subCategory := patch.subCategory.orElse fun _ => p.subCategory
    priceInr := patch.priceInr.getD p.priceInr
    priceBhd := patch.priceBhd.getD p.priceBhd
    stock := patch.stock.getD p.stock
    isActive := patch.isActive.getD p.isActive
    isFeatured := patch.isFeatured.getD p.isFeatured }

/-- `updateProduct`: update in place, return the updated row or absent. -/
def updateProduct (db : DB) (id : String) (patch : ProductPatch) :
    Option Product × DB :=
  let u := runUpdate db.products (fun p => decide (p.id = id))
    (applyProductPatch patch)
  (u.2.head?, { db with products := u.1 })

/-- `deleteProduct`: soft delete — flip `isActive` to `false`; the boolean is
`!!deletedProduct`, i.e. whether the `RETURNING` set was non-empty. -/
def deleteProduct (db : DB) (id : String) : Bool × DB :=
  let u := runUpdate db.products (fun p => decide (p.id = id))
    (fun p => { p with isActive := false })
  (!u.2.isEmpty, { db with products := u.1 })

/-! ### Bill operations -/

/-- `InsertBill` (the insert schema omits `id`, `createdAt`, `updatedAt`,
`billNumber`): `vat`, `discount`, `currency` have column defaults and are
optional; the caller-supplied `total` is present but overwritten by
`createBill`/`updateBill`. -/
structure InsertBill where
  customerName : String
  currency : Option String := none
  subtotal : ℚ
  makingCharges : ℚ
  gst : ℚ
  vat : Option ℚ := none
  discount : Option ℚ := none
  total : ℚ
  paidAmount : ℚ
  items : List BillItem
  deriving Repr, DecidableEq

/-- `createBill`: `total = Number(subtotal) + Number(makingCharges) +
Number(gst) - Number(discount || 0)`; the line-item list is persisted
verbatim.  (The source returns the raw `RETURNING` array cast to `Bill`; the
model returns the persisted row.) -/
def createBill (db : DB) (newId : String) (now : Nat) (bill : InsertBill) :
    Bill × DB :=
  let total := bill.subtotal + bill.makingCharges + bill.gst - bill.discount.getD 0
  let newBill : Bill :=
    { id := newId
      customerName := bill.customerName
      currency := bill.currency.getD "INR"
      subtotal := bill.subtotal
      makingCharges := bill.makingCharges
      gst := bill.gst
      vat := bill.vat.getD 0
      discount := bill.discount.getD 0
      total := total
      paidAmount := bill.paidAmount
      items := bill.items
      createdAt := now
      updatedAt := now }
  (newBill, { db with bills := db.bills ++ [newBill] })

/-- `Partial<InsertBill>`: every field optional. -/
structure BillPatch where
  customerName : Option String := none
  currency : Option String := none
  subtotal : Option ℚ := none
  makingCharges : Option ℚ := none
  gst : Option ℚ := none
  vat : Option ℚ := none
  discount : Option ℚ := none
  total : Option ℚ := none
  paidAmount : Option ℚ := none
  items : Option (List BillItem) := none
  deriving Repr, DecidableEq

/-- `{...billData, total, updatedAt}`: patch fields first, then the computed
`total` and the fresh `updatedAt` overwrite (so a caller-supplied
`billData.total` is ignored). -/
def applyBillPatch (now : Nat) (patch : BillPatch) (total : ℚ) (b : Bill) :
    Bill :=
  { b with
    customerName := patch.customerName.getD b.customerName
    currency := patch.currency.getD b.currency
    subtotal := patch.subtotal.getD b.subtotal
    makingCharges := patch.makingCharges.getD b.makingCharges
    gst := patch.gst.getD b.gst
    vat := patch.vat.getD b.vat
    discount := patch.discount.getD b.discount
    paidAmount := patch.paidAmount.getD b.paidAmount
    items := patch.items.getD b.items
    total := total
    updatedAt := now }

/-- `updateBill`: recompute `total` from the patch alone
(`Number(billData.subtotal || 0) + Number(billData.makingCharges || 0) +
Number(billData.gst || 0) - Number(billData.discount || 0)`) and update. -/
def updateBill (db : DB) (now : Nat) (id : String) (billData : BillPatch) :
    Option Bill × DB :=
  let total := billData.subtotal.getD 0 + billData.makingCharges.getD 0 +
    billData.gst.getD 0 - billData.discount.getD 0
  let u := runUpdate db.bills (fun b => decide (b.id = id))
    (applyBillPatch now billData total)
  (u.2.head?, { db with bills := u.1 })

/-! ### Estimate operations -/

/-- `InsertEstimate` restricted to the embedded columns (`status` has a
column default). -/
structure InsertEstimate where
  customerName : String
  customerPhone : String
  productName : String
  totalAmount : ℚ
  validUntil : JSDate
  status : Option String := none
  deriving Repr, DecidableEq

/-- `createEstimate`: generate `quotationNo` as
`PJ-QTN-<year>-<month>-<seq>` where `<seq>` is the number of estimates whose
`createdAt` falls in the current month's window, plus one, padded to three
digits; then insert with `createdAt = now` (column default). -/
def createEstimate (db : DB) (newId : String) (now : JSDate)
    (insertEstimate : InsertEstimate) : Estimate × DB :=
  let year := now.year
  let month := padStart (natToString (now.month + 1)) 2 '0'
  let monthlyEstimates :=
    db.estimates.filter fun e => inMonthWindow now e.createdAt
  let sequentialNumber := padStart (natToString (monthlyEstimates.length + 1)) 3 '0'
  let quotationNo :=
    "PJ-QTN-" ++ natToString year ++ "-" ++ month ++ "-" ++ sequentialNumber
  let estimate : Estimate :=
    { id := newId
      quotationNo := quotationNo
      customerName := insertEstimate.customerName
      customerPhone := insertEstimate.customerPhone
      productName := insertEstimate.productName
      totalAmount := insertEstimate.totalAmount
      validUntil := insertEstimate.validUntil
      status := insertEstimate.status.getD "PENDING"
      createdAt := now }
  (estimate, { db with estimates := db.estimates ++ [estimate] })

/-- `Partial<InsertEstimate>`. -/
structure EstimatePatch where
  customerName : Option String := none
  customerPhone : Option String := none
  productName : Option String := none
  totalAmount : Option ℚ := none
  validUntil : Option JSDate := none
  status : Option String := none
  deriving Repr, DecidableEq

def applyEstimatePatch (patch : EstimatePatch) (e : Estimate) : Estimate :=
  { e with
    customerName := patch.customerName.getD e.customerName
    customerPhone := patch.customerPhone.getD e.customerPhone
    productName := patch.productName.getD e.productName
    totalAmount := patch.totalAmount.getD e.totalAmount
    validUntil := patch.validUntil.getD e.validUntil
    status := patch.status.getD e.status }

/-- `updateEstimate`: update in place, but `throw new Error('Estimate not
found')` — a hard failure, not an absent marker — when no row matched. -/
def updateEstimate (db : DB) (id : String) (patch : EstimatePatch) :
    Except String Estimate × DB :=
  let u := runUpdate db.estimates (fun e => decide (e.id = id))
    (applyEstimatePatch patch)
  match u.2.head? with
  | none => (Except.error "Estimate not found", { db with estimates := u.1 })
  | some e => (Except.ok e, { db with estimates := u.1 })

/-! ### Category operations -/

/-- `ORDER BY displayOrder, name`. -/
def catOrder (a b : Category) : Prop :=
  a.displayOrder < b.displayOrder ∨
    (a.displayOrder = b.displayOrder ∧ a.name ≤ b.name)

instance : DecidableRel catOrder := fun a b =>
  inferInstanceAs (Decidable (a.displayOrder < b.displayOrder ∨
    (a.displayOrder = b.displayOrder ∧ a.name ≤ b.name)))

/-- `getAllCategories`: all rows, `ORDER BY displayOrder, name`. -/
def getAllCategories (db : DB) : List Category :=
  List.insertionSort catOrder db.categories

/-- `getCategoriesHierarchy`: take all categories, keep those with a falsy
`parentId` as mains, and pair each main with the categories whose `parentId`
strictly equals its id. -/
def getCategoriesHierarchy (db : DB) : List (Category × List Category) :=
  let allCategories := getAllCategories db
  let mainCategories := allCategories.filter fun cat => !(jsTruthyStr cat.parentId)
  mainCategories.map fun mainCat =>
    (mainCat, allCategories.filter fun cat => decide (cat.parentId = some mainCat.id))

/-- `getCategory`: first row with the given id, else absent. -/
def getCategory (db : DB) (id : String) : Option Category :=
  (db.categories.filter fun c => decide (c.id = id)).head?

/-- `getSubCategories`: `WHERE parentId = ? ORDER BY displayOrder, name`. -/
def getSubCategories (db : DB) (parentId : String) : List Category :=
  List.insertionSort catOrder
    (db.categories.filter fun c => decide (c.parentId = some parentId))

/-- `Partial<InsertCategory>` (a present `parentId` may itself be null). -/
structure CategoryPatch where
  name : Option String := none
  slug : Option String := none
  parentId : Option (Option String) := none
  displayOrder : Option Int := none
  isActive : Option Bool := none
  deriving Repr, DecidableEq

def applyCategoryPatch (now : Nat) (patch : CategoryPatch) (c : Category) :
    Category :=
  { c with
    name := patch.name.getD c.name
    slug := patch.slug.getD c.slug
    parentId := patch.parentId.getD c.parentId
    displayOrder := patch.displayOrder.getD c.displayOrder
    isActive := patch.isActive.getD c.isActive
    updatedAt := now }

/-- `updateCategory`: `{...updateData, updatedAt}`, absent on a missing id. -/
def updateCategory (db : DB) (now : Nat) (id : String) (patch : CategoryPatch) :
    Option Category × DB :=
  let u := runUpdate db.categories (fun c => decide (c.id = id))
    (applyCategoryPatch now patch)
  (u.2.head?, { db with categories := u.1 })

/-- `deleteCategory`: refuse (`false`) when a subcategory references the id,
then refuse when any product's `category` equals
`(getCategory id)?.slug || ''`; otherwise delete and report whether any row
went away. -/
def deleteCategory (db : DB) (id : String) : Bool × DB :=
  let children := getSubCategories db id
  if children.length > 0 then (false, db)
  else
    let slug := ((getCategory db id).map Category.slug).getD ""
    let productsUsingCategory := db.products.filter fun p => decide (p.category = slug)
    if productsUsingCategory.length > 0 then (false, db)
    else
      let removed := db.categories.filter fun c => decide (c.id = id)
      (decide (0 < removed.length),
        { db with categories := db.categories.filter fun c => !(decide (c.id = id)) })

/-! ### Home section operations -/

/-- `Partial<InsertHomeSection>`. -/
structure HomeSectionPatch where
  title : Option String := none
  subtitle : Option (Option String) := none
  layoutType : Option String := none
  isActive : Option Bool := none
  displayOrder : Option Int := none
  deriving Repr, DecidableEq

def applyHomeSectionPatch (now : Nat) (patch : HomeSectionPatch)
    (s : HomeSection) : HomeSection :=
  { s with
    title := patch.title.getD s.title
    subtitle := patch.subtitle.getD s.subtitle
    layoutType := patch.layoutType.getD s.layoutType
    isActive := patch.isActive.getD s.isActive
    displayOrder := patch.displayOrder.getD s.displayOrder
    updatedAt := now }

/-- `updateHomeSection`: `{...updateData, updatedAt}`, absent on a missing
id. -/
def updateHomeSection (db : DB) (now : Nat) (id : String)
    (patch : HomeSectionPatch) : Option HomeSection × DB :=
  let u := runUpdate db.homeSections (fun s => decide (s.id = id))
    (applyHomeSectionPatch now patch)
  (u.2.head?, { db with homeSections := u.1 })

/-- `ORDER BY position`. -/
def posOrder (a b : HomeSectionItem × Product) : Prop :=
  a.1.position ≤ b.1.position

instance : DecidableRel posOrder := fun a b =>
  inferInstanceAs (Decidable (a.1.position ≤ b.1.position))

/-- `getHomeSectionItems`: inner join of the section's items against the
products table on `productId = products.id` (no `isActive` predicate),
`ORDER BY position`. -/
def getHomeSectionItems (db : DB) (sectionId : String) :
    List (HomeSectionItem × Product) :=
  let joined := db.homeSectionItems.flatMap fun item =>
    (db.products.filter fun p => decide (item.productId = p.id)).map
      fun p => (item, p)
  List.insertionSort posOrder
    (joined.filter fun e => decide (e.1.sectionId = sectionId))

/-- `Partial<InsertHomeSectionItem>`. -/
structure HomeSectionItemPatch where
  sectionId : Option String := none
  productId : Option String := none
  displayName : Option (Option String) := none
  displayPrice : Option (Option String) := none
  displayPriceInr : Option (Option String) := none
  displayPriceBhd : Option (Option String) := none
  position : Option Int := none
  size : Option String := none
  deriving Repr, DecidableEq

def applyHomeSectionItemPatch (patch : HomeSectionItemPatch)
    (it : HomeSectionItem) : HomeSectionItem :=
  { it with
    sectionId := patch.sectionId.getD it.sectionId
    productId := patch.productId.getD it.productId
    displayName := patch.displayName.getD it.displayName
    displayPrice := patch.displayPrice.getD it.displayPrice
    displayPriceInr := patch.displayPriceInr.getD it.displayPriceInr
    displayPriceBhd := patch.displayPriceBhd.getD it.displayPriceBhd
    position := patch.position.getD it.position
    size := patch.size.getD it.size }

/-- `updateHomeSectionItem`: absent on a missing id. -/
def updateHomeSectionItem (db : DB) (itemId : String)
    (patch : HomeSectionItemPatch) : Option HomeSectionItem × DB :=
  let u := runUpdate db.homeSectionItems (fun it => decide (it.id = itemId))
    (applyHomeSectionItemPatch patch)
  (u.2.head?, { db with homeSectionItems := u.1 })

/-! ### List bookkeeping lemmas

Small facts about filtering under a duplicate-free key column, used to reason
about `WHERE key = ?` queries. -/

lemma nodup_key_eq {α β} {l : List α} {k : α → β} (h : (l.map k).Nodup)
    {a b : α} (ha : a ∈ l) (hb : b ∈ l) (hk : k a = k b) : a = b := by
  induction l with
  | nil => cases ha
  | cons x xs ih =>
    rw [List.map_cons, List.nodup_cons] at h
    rcases List.mem_cons.mp ha with rfl | ha₀ <;>
      rcases List.mem_cons.mp hb with rfl | hb₀
    · rfl
    · exact absurd (hk ▸ List.mem_map_of_mem k hb₀) h.1
    · exact absurd (hk ▸ List.mem_map_of_mem k ha₀) h.1
    · exact ih h.2 ha₀ hb₀

lemma filter_key_of_nodup {α β} [DecidableEq β] {l : List α} {k : α → β}
    (h : (l.map k).Nodup) {c : α} (hc : c ∈ l) :
    l.filter (fun x => decide (k x = k c)) = [c] := by
  induction l with
  | nil => cases hc
  | cons x xs ih =>
    rw [List.map_cons, List.nodup_cons] at h
    rcases List.mem_cons.mp hc with heq | hc₀
    · subst heq
      rw [List.filter_cons_of_pos (by simp)]
      have : xs.filter (fun a => decide (k a = k c)) = [] := by
        rw [List.filter_eq_nil_iff]
        intro a ha
        simp only [decide_eq_true_eq]
        intro hax
        exact h.1 (hax ▸ List.mem_map_of_mem k ha)
      rw [this]
    · rw [List.filter_cons_of_neg ?hneg, ih h.2 hc₀]
      case hneg =>
        simp only [decide_eq_true_eq]
        intro hxc
        exact h.1 (hxc ▸ List.mem_map_of_mem k hc₀)

lemma sum_map_eq_length_filter {α} (l : List α) (g : α → Nat) (p : α → Bool)
    (h : ∀ x ∈ l, g x = if p x = true then 1 else 0) :
    (l.map g).sum = (l.filter p).length := by
  induction l with
  | nil => rfl
  | cons x xs ih =>
    rw [List.map_cons, List.sum_cons, h x (List.mem_cons_self x xs),
      List.filter_cons, ih fun y hy => h y (List.mem_cons_of_mem x hy)]
    by_cases hx : p x = true <;> simp [hx]
    omega

lemma runUpdate_head?_none {α} {tbl : List α} {hit : α → Bool} {patch : α → α}
    (h : ∀ r ∈ tbl, hit r = false) : (runUpdate tbl hit patch).2.head? = none := by
  rw [runUpdate_returning_nil h]
  rfl

/-! ### C7: createBill total formula and verbatim line items -/

/-- C7: for every input bill, `createBill` persists
`total = subtotal + makingCharges + gst - discount` with the discount
defaulting to 0 when absent, and persists the supplied line-item list
verbatim (the row appended to the bills table is the returned row, with no
recomputation of line-item arithmetic). -/
theorem createBill_total_formula (db : DB) (newId : String) (now : Nat)
    (bill : InsertBill) :
    (createBill db newId now bill).1.total =
        bill.subtotal + bill.makingCharges + bill.gst - bill.discount.getD 0 ∧
      (createBill db newId now bill).1.items = bill.items ∧
      (createBill db newId now bill).2.bills =
        db.bills ++ [(createBill db newId now bill).1] :=
  ⟨rfl, rfl, rfl⟩

/-! ### C8: authenticateUser returns null, never an error -/

/-- C8: `authenticateUser` returns `none` — it is a total function, never an
error — both when no user carries the email and when the password fails
verification, and returns a user exactly when the lookup succeeds and the
password verifies; the `none` result does not distinguish the two failure
causes. -/
theorem authenticateUser_non_distinguishing (bcryptCompare : String → String → Bool)
    (db : DB) (email password : String) :
    (getUserByEmail db email = none →
        authenticateUser bcryptCompare db email password = none) ∧
      (∀ u, getUserByEmail db email = some u →
        bcryptCompare password u.password = false →
        authenticateUser bcryptCompare db email password = none) ∧
      (∀ u, authenticateUser bcryptCompare db email password = some u ↔
        getUserByEmail db email = some u ∧
          bcryptCompare password u.password = true) := by
  refine ⟨fun h => ?_, fun u hu hv => ?_, fun u => ?_⟩
  · simp [authenticateUser, h]
  · simp [authenticateUser, hu, hv]
  · unfold authenticateUser
    cases hlook : getUserByEmail db email with
    | none => simp
    | some v =>
      dsimp only
      by_cases hv : bcryptCompare password v.password = true
      · rw [if_pos hv]
        constructor
        · intro h
          injection h with h
          subst h
          exact ⟨rfl, hv⟩
        · rintro ⟨h1, _⟩
          injection h1 with h1
          rw [h1]
      · rw [if_neg hv]
        constructor
        · intro h
          cases h
        · rintro ⟨h1, h2⟩
          injection h1 with h1
          rw [← h1] at h2
          exact absurd h2 hv

/-- Witness for C8, the spec's scenario: against an empty users table,
`authenticateUser("nouser@x.com", "anything")` returns `null`. -/
theorem authenticateUser_non_distinguishing_witness :
    authenticateUser (fun _ _ => true)
      { users := [], products := [], bills := [], estimates := [],
        categories := [], homeSections := [], homeSectionItems := [] }
      "nouser@x.com" "anything" = none :=
  (authenticateUser_non_distinguishing (fun _ _ => true) _ "nouser@x.com"
    "anything").1 rfl

/-! ### C5: customer product reads see only active products -/

/-- C5: `getAllProducts`, `getProductsByCategory`, and `getProduct` filter to
`isActive = true`: no inactive row is ever returned, and `getProduct` of a
product whose every row is inactive (ids are unique) is absent. -/
theorem product_reads_only_active (db : DB) :
    (∀ p ∈ getAllProducts db, p.isActive = true) ∧
      (∀ category, ∀ p ∈ getProductsByCategory db category, p.isActive = true) ∧
      (∀ id p, getProduct db id = some p → p.isActive = true) ∧
      (∀ p ∈ db.products, (db.products.map Product.id).Nodup →
        p.isActive = false → getProduct db p.id = none) := by
  refine ⟨fun p hp => ?_, fun category p hp => ?_, fun id p hp => ?_,
    fun p hp hnd hinact => ?_⟩
  · rw [getAllProducts, (List.perm_insertionSort _ _).mem_iff,
      List.mem_filter] at hp
    simpa using hp.2
  · rw [getProductsByCategory, (List.perm_insertionSort _ _).mem_iff,
      List.mem_filter] at hp
    exact (of_decide_eq_true hp.2).2
  · simp only [getProduct] at hp
    have hmem := List.mem_of_mem_head? (Option.mem_def.mpr hp)
    exact (of_decide_eq_true (List.mem_filter.mp hmem).2).2
  · rw [getProduct, List.filter_eq_nil_iff.mpr ?_]
    · rfl
    · intro q hq
      simp only [decide_eq_true_eq, not_and]
      intro hid
      have : q = p := nodup_key_eq hnd hq hp hid
      rw [this, hinact]
      simp


/-- An inactive ("soft-deleted") product used in concrete checks. -/
def exInactiveProduct : Product :=
  { id := "p1", name := "Gold Ring", description := "22K gold ring",
    category := "rings", subCategory := none, priceInr := 1000,
    priceBhd := 5, stock := 1, isActive := false, isFeatured := false,
    createdAt := 0 }

/-- A store holding a single inactive product. -/
def exDbInactive : DB :=
  { users := [], products := [exInactiveProduct], bills := [], estimates := [],
    categories := [], homeSections := [], homeSectionItems := [] }

/-- Witness for C5: in a store holding one inactive product, `getProduct` of
its id is absent. -/
theorem product_reads_only_active_witness :
    getProduct exDbInactive "p1" = none :=
  (product_reads_only_active exDbInactive).2.2.2 exInactiveProduct
    (by decide) (by decide) rfl

/-! ### C6: deleteProduct is a soft delete -/

/-- C6: `deleteProduct` flips `isActive` to `false` without removing any row
(the table keeps its length and still holds a row with the id, now
inactive), returns `true` exactly when a row with the id was matched, and
for a previously-existing id a subsequent `getProduct` is absent. -/
theorem deleteProduct_soft_delete (db : DB) (p : Product) (hp : p ∈ db.products) :
    (deleteProduct db p.id).1 = true ∧
      (deleteProduct db p.id).2.products.length = db.products.length ∧
      (∃ q ∈ (deleteProduct db p.id).2.products, q.id = p.id ∧ q.isActive = false) ∧
      getProduct (deleteProduct db p.id).2 p.id = none ∧
      (∀ id, (deleteProduct db id).1 = true ↔ ∃ q ∈ db.products, q.id = id) := by
  have hret : ∀ id, ((runUpdate db.products (fun q => decide (q.id = id))
      (fun q => { q with isActive := false })).2 = [] ↔
        ¬∃ q ∈ db.products, q.id = id) := by
    intro id
    rw [runUpdate]
    simp only [List.map_eq_nil_iff, List.filter_eq_nil_iff, decide_eq_true_eq]
    constructor
    · rintro h ⟨q, hq, hid⟩
      exact h q hq hid
    · intro h q hq hid
      exact h ⟨q, hq, hid⟩
  refine ⟨?_, ?_, ?_, ?_, ?_⟩
  · simp only [deleteProduct]
    cases hie : (runUpdate db.products (fun q => decide (q.id = p.id))
        (fun q => { q with isActive := false })).2.isEmpty with
    | false => rfl
    | true =>
      exact absurd ⟨p, hp, rfl⟩ ((hret p.id).mp (List.isEmpty_iff.mp hie))
  · simp [deleteProduct, runUpdate]
  · refine ⟨{ p with isActive := false }, ?_, rfl, rfl⟩
    simp only [deleteProduct, runUpdate]
    have := List.mem_map_of_mem
      (fun q => if decide (q.id = p.id) = true then { q with isActive := false } else q) hp
    simpa using this
  · rw [getProduct, List.filter_eq_nil_iff.mpr ?_]
    · rfl
    · intro q hq
      simp only [deleteProduct, runUpdate, List.mem_map] at hq
      obtain ⟨r, _, hr⟩ := hq
      simp only [decide_eq_true_eq, not_and]
      intro hid
      by_cases hcase : r.id = p.id
      · rw [← hr]
        simp [hcase]
      · exfalso
        apply hcase
        rw [← hr] at hid
        by_cases h2 : decide (r.id = p.id) = true
        · exact of_decide_eq_true h2
        · rw [if_neg h2] at hid
          exact hid
  · intro id
    simp only [deleteProduct]
    constructor
    · intro h
      by_contra hno
      rw [(hret id).mpr hno] at h
      simp at h
    · intro hex
      cases hie : (runUpdate db.products (fun q => decide (q.id = id))
          (fun q => { q with isActive := false })).2.isEmpty with
      | false => rfl
      | true =>
        exact absurd hex ((hret id).mp (List.isEmpty_iff.mp hie))

/-- Witness for C6 on the one-product store: deleting the product reports
`true` and the subsequent `getProduct` is absent. -/
theorem deleteProduct_soft_delete_witness :
    (deleteProduct exDbInactive "p1").1 = true ∧
      getProduct (deleteProduct exDbInactive "p1").2 "p1" = none := by
  have h := deleteProduct_soft_delete exDbInactive exInactiveProduct (by decide)
  exact ⟨h.1, h.2.2.2.1⟩

/-! ### C2: deleteCategory referential guard -/

/-- C2: for a stored category (ids unique), `deleteCategory` returns `false`
and leaves the store untouched when some category names it as parent or some
product — active or not — carries its slug; with no child and no referencing
product it removes exactly the category's row and returns `true`. -/
theorem deleteCategory_referential_guard (db : DB) (c : Category)
    (hnd : (db.categories.map Category.id).Nodup) (hc : c ∈ db.categories) :
    (((∃ k ∈ db.categories, k.parentId = some c.id) ∨
        (∃ p ∈ db.products, p.category = c.slug)) →
      deleteCategory db c.id = (false, db)) ∧
      ((∀ k ∈ db.categories, k.parentId ≠ some c.id) →
       (∀ p ∈ db.products, p.category ≠ c.slug) →
        (deleteCategory db c.id).1 = true ∧
          (deleteCategory db c.id).2 =
            { db with categories :=
                db.categories.filter fun k => !(decide (k.id = c.id)) } ∧
          c ∉ (deleteCategory db c.id).2.categories) := by
  have hchild_len : (getSubCategories db c.id).length =
      (db.categories.filter fun k => decide (k.parentId = some c.id)).length :=
    (List.perm_insertionSort _ _).length_eq
  have hgetcat : getCategory db c.id = some c := by
    have h1 : db.categories.filter (fun x => decide (x.id = c.id)) = [c] :=
      filter_key_of_nodup (k := Category.id) hnd hc
    simp [getCategory, h1]
  constructor
  · intro hblock
    simp only [deleteCategory]
    by_cases hch : ∃ k ∈ db.categories, k.parentId = some c.id
    · have hlen : (getSubCategories db c.id).length > 0 := by
        rw [hchild_len]
        obtain ⟨k, hk, hpk⟩ := hch
        exact List.length_pos.mpr (List.ne_nil_of_mem
          (List.mem_filter.mpr ⟨hk, by simp [hpk]⟩))
      rw [if_pos hlen]
    · have hnoch : ¬(getSubCategories db c.id).length > 0 := by
        rw [hchild_len]
        simp only [gt_iff_lt, not_lt, Nat.le_zero, List.length_eq_zero,
          List.filter_eq_nil_iff, decide_eq_true_eq]
        intro k hk hpk
        exact hch ⟨k, hk, hpk⟩
      rw [if_neg hnoch, hgetcat]
      obtain ⟨p, hp, hps⟩ := hblock.resolve_left hch
      have hplen : (db.products.filter fun p =>
          decide (p.category = ((some c).map Category.slug).getD "")).length > 0 := by
        refine List.length_pos.mpr (List.ne_nil_of_mem
          (List.mem_filter.mpr ⟨hp, ?_⟩))
        simp [hps]
      rw [if_pos hplen]
  · intro hnochild hnoprod
    have hnoch : ¬(getSubCategories db c.id).length > 0 := by
      rw [hchild_len]
      simp only [gt_iff_lt, not_lt, Nat.le_zero, List.length_eq_zero,
        List.filter_eq_nil_iff, decide_eq_true_eq]
      exact hnochild
    have hnopl : ¬(db.products.filter fun p =>
        decide (p.category = ((some c).map Category.slug).getD "")).length > 0 := by
      simp only [gt_iff_lt, not_lt, Nat.le_zero, List.length_eq_zero,
        List.filter_eq_nil_iff, decide_eq_true_eq, Option.map_some, Option.getD_some]
      exact hnoprod
    have hrem : db.categories.filter (fun x => decide (x.id = c.id)) = [c] :=
      filter_key_of_nodup (k := Category.id) hnd hc
    refine ⟨?_, ?_, ?_⟩
    · simp only [deleteCategory]
      rw [if_neg hnoch, hgetcat, if_neg hnopl, hrem]
      rfl
    · simp only [deleteCategory]
      rw [if_neg hnoch, hgetcat, if_neg hnopl]
    · simp only [deleteCategory]
      rw [if_neg hnoch, hgetcat, if_neg hnopl]
      simp

/-- The spec's category scenario: a root `rings` category with one
subcategory and one (soft-deleted) product still referencing the `rings`
slug. -/
def exDbCats : DB :=
  { users := [], products := [exInactiveProduct], bills := [], estimates := [],
    categories :=
      [{ id := "c-rings", name := "Rings", slug := "rings", parentId := none,
         displayOrder := 0, isActive := true, createdAt := 0, updatedAt := 0 },
       { id := "c-eng", name := "Engagement Rings", slug := "engagement-rings",
         parentId := some "c-rings", displayOrder := 1, isActive := true,
         createdAt := 0, updatedAt := 0 }],
    homeSections := [], homeSectionItems := [] }

/-- Witness for C2, the spec's scenario: deleting `rings` is refused (child
present, and the referencing product is only soft-deleted), while deleting
the childless, unreferenced `engagement-rings` succeeds. -/
theorem deleteCategory_referential_guard_witness :
    deleteCategory exDbCats "c-rings" = (false, exDbCats) ∧
      (deleteCategory exDbCats "c-eng").1 = true := by
  constructor
  · exact (deleteCategory_referential_guard exDbCats
      { id := "c-rings", name := "Rings", slug := "rings", parentId := none,
        displayOrder := 0, isActive := true, createdAt := 0, updatedAt := 0 }
      (by decide) (by decide)).1
      (Or.inr ⟨exInactiveProduct, by decide, by decide⟩)
  · exact ((deleteCategory_referential_guard exDbCats
      { id := "c-eng", name := "Engagement Rings", slug := "engagement-rings",
        parentId := some "c-rings", displayOrder := 1, isActive := true,
        createdAt := 0, updatedAt := 0 }
      (by decide) (by decide)).2 (by decide) (by decide)).1

/-! ### C10: updateBill recomputes total from the patch alone -/

/-- C10: `updateBill` of a stored bill (ids unique) always overwrites the
stored `total` with `subtotal + makingCharges + gst - discount` computed
solely from the fields present in the partial update, each absent field
counting as 0 — the bill's previously stored components (and any
caller-supplied `total`) do not enter the formula. -/
theorem updateBill_total_from_patch_only (db : DB) (now : Nat) (b : Bill)
    (patch : BillPatch) (hnd : (db.bills.map Bill.id).Nodup)
    (hb : b ∈ db.bills) :
    (updateBill db now b.id patch).1 =
        some (applyBillPatch now patch
          (patch.subtotal.getD 0 + patch.makingCharges.getD 0 +
            patch.gst.getD 0 - patch.discount.getD 0) b) ∧
      ∀ b', (updateBill db now b.id patch).1 = some b' →
        b'.total = patch.subtotal.getD 0 + patch.makingCharges.getD 0 +
          patch.gst.getD 0 - patch.discount.getD 0 := by
  have hfil : db.bills.filter (fun x => decide (x.id = b.id)) = [b] :=
    filter_key_of_nodup (k := Bill.id) hnd hb
  have hfst : (updateBill db now b.id patch).1 =
      some (applyBillPatch now patch
        (patch.subtotal.getD 0 + patch.makingCharges.getD 0 +
          patch.gst.getD 0 - patch.discount.getD 0) b) := by
    simp only [updateBill, runUpdate, hfil]
    rfl
  refine ⟨hfst, fun b' hb' => ?_⟩
  rw [hfst] at hb'
  injection hb' with hb'
  rw [← hb']
  rfl

/-- A stored bill with nonzero components, for concrete checks. -/
def exBill : Bill :=
  { id := "b1", customerName := "A", currency := "INR", subtotal := 100,
    makingCharges := 10, gst := 3, vat := 0, discount := 5, total := 108,
    paidAmount := 108, items := [], createdAt := 0, updatedAt := 0 }

def exDbBill : DB :=
  { users := [], products := [], bills := [exBill], estimates := [],
    categories := [], homeSections := [], homeSectionItems := [] }

/-- Witness for C10: an empty partial update of a bill whose stored
components are nonzero resets `total` to 0 — the stored values are
ignored. -/
theorem updateBill_total_from_patch_only_witness :
    (updateBill exDbBill 5 "b1" ({} : BillPatch)).1 =
        some (applyBillPatch 5 {} 0 exBill) ∧
      (applyBillPatch 5 {} 0 exBill).total = 0 := by
  have h := updateBill_total_from_patch_only exDbBill 5 exBill {}
    (by decide) (by decide)
  constructor
  · have h1 := h.1
    simpa using h1
  · have h2 := h.2 (applyBillPatch 5 {} 0 exBill) (by simpa using h.1)
    simpa using h2

/-! ### C9: updateEstimate is the only raising update -/

/-- C9: against a missing id, `updateEstimate` raises
(`Error('Estimate not found')`) while every other update operation —
`updateProduct`, `updateCategory`, `updateBill`, `updateHomeSection`,
`updateHomeSectionItem`, and all the user updates — returns the absent
marker. -/
theorem updateEstimate_only_raising_update (db : DB) (now : Nat)
    (bcryptHash : String → String)
    (estimateId productId categoryId billId sectionId itemId userId : String)
    (epatch : EstimatePatch) (ppatch : ProductPatch) (cpatch : CategoryPatch)
    (bpatch : BillPatch) (spatch : HomeSectionPatch)
    (ipatch : HomeSectionItemPatch)
    (otpCode customerId subscriptionId newPassword : String) (otpExpiry : Nat)
    (verified : Bool)
    (hest : ∀ e ∈ db.estimates, e.id ≠ estimateId)
    (hpro : ∀ p ∈ db.products, p.id ≠ productId)
    (hcat : ∀ c ∈ db.categories, c.id ≠ categoryId)
    (hbil : ∀ b ∈ db.bills, b.id ≠ billId)
    (hsec : ∀ s ∈ db.homeSections, s.id ≠ sectionId)
    (hitm : ∀ it ∈ db.homeSectionItems, it.id ≠ itemId)
    (husr : ∀ u ∈ db.users, u.id ≠ userId) :
    (updateEstimate db estimateId epatch).1 =
        Except.error "Estimate not found" ∧
      (updateProduct db productId ppatch).1 = none ∧
      (updateCategory db now categoryId cpatch).1 = none ∧
      (updateBill db now billId bpatch).1 = none ∧
      (updateHomeSection db now sectionId spatch).1 = none ∧
      (updateHomeSectionItem db itemId ipatch).1 = none ∧
      (updateStripeCustomerId db userId customerId).1 = none ∧
      (updateUserStripeInfo db userId customerId subscriptionId).1 = none ∧
      (updateUserOtp db userId otpCode otpExpiry).1 = none ∧
      (updateUserOtpVerified db userId verified).1 = none ∧
      (updateUserPassword bcryptHash db userId newPassword).1 = none ∧
      (clearUserOtp db userId).1 = none := by
  refine ⟨?_, ?_, ?_, ?_, ?_, ?_, ?_, ?_, ?_, ?_, ?_, ?_⟩
  · simp only [updateEstimate]
    rw [runUpdate_head?_none fun e he => decide_eq_false (hest e he)]
  · simp only [updateProduct]
    exact runUpdate_head?_none fun r hr => decide_eq_false (hpro r hr)
  · simp only [updateCategory]
    exact runUpdate_head?_none fun r hr => decide_eq_false (hcat r hr)
  · simp only [updateBill]
    exact runUpdate_head?_none fun r hr => decide_eq_false (hbil r hr)
  · simp only [updateHomeSection]
    exact runUpdate_head?_none fun r hr => decide_eq_false (hsec r hr)
  · simp only [updateHomeSectionItem]
    exact runUpdate_head?_none fun r hr => decide_eq_false (hitm r hr)
  · simp only [updateStripeCustomerId]
    exact runUpdate_head?_none fun r hr => decide_eq_false (husr r hr)
  · simp only [updateUserStripeInfo]
    exact runUpdate_head?_none fun r hr => decide_eq_false (husr r hr)
  · simp only [updateUserOtp]
    exact runUpdate_head?_none fun r hr => decide_eq_false (husr r hr)
  · simp only [updateUserOtpVerified]
    exact runUpdate_head?_none fun r hr => decide_eq_false (husr r hr)
  · simp only [updateUserPassword]
    exact runUpdate_head?_none fun r hr => decide_eq_false (husr r hr)
  · simp only [clearUserOtp]
    exact runUpdate_head?_none fun r hr => decide_eq_false (husr r hr)

/-- The empty store. -/
def emptyDB : DB :=
  { users := [], products := [], bills := [], estimates := [],
    categories := [], homeSections := [], homeSectionItems := [] }

/-- Witness for C9 on the empty store: `updateEstimate` raises, the other
updates return absent. -/
theorem updateEstimate_only_raising_update_witness :
    (updateEstimate emptyDB "x" {}).1 = Except.error "Estimate not found" ∧
      (updateProduct emptyDB "x" {}).1 = none ∧
      (updateBill emptyDB 0 "x" {}).1 = none := by
  have h := updateEstimate_only_raising_update emptyDB 0 (fun s => s)
    "x" "x" "x" "x" "x" "x" "x" {} {} {} {} {} {} "c" "c" "c" "c" 0 false
    (by simp [emptyDB]) (by simp [emptyDB]) (by simp [emptyDB])
    (by simp [emptyDB]) (by simp [emptyDB]) (by simp [emptyDB])
    (by simp [emptyDB])
  exact ⟨h.1, h.2.1, h.2.2.2.1⟩

/-! ### C3: createEstimate quotation numbering -/

lemma bool_eq_of_iff {a b : Bool} (h : a = true ↔ b = true) : a = b := by
  cases a <;> cases b <;> simp_all

lemma createEstimate_quotationNo (db : DB) (newId : String) (now : JSDate)
    (ins : InsertEstimate) :
    (createEstimate db newId now ins).1.quotationNo =
      ("PJ-QTN-" ++ natToString now.year ++ "-" ++
        padStart (natToString (now.month + 1)) 2 '0' ++ "-") ++
        padStart (natToString
          ((db.estimates.filter fun e =>
            inMonthWindow now e.createdAt).length + 1)) 3 '0' := rfl

lemma createEstimate_estimates (db : DB) (newId : String) (now : JSDate)
    (ins : InsertEstimate) :
    (createEstimate db newId now ins).2.estimates =
      db.estimates ++ [(createEstimate db newId now ins).1] := rfl

lemma createEstimate_createdAt (db : DB) (newId : String) (now : JSDate)
    (ins : InsertEstimate) :
    (createEstimate db newId now ins).1.createdAt = now := rfl

/-- C3: `createEstimate` numbers the new estimate
`PJ-QTN-<year>-<month>-<seq>` with `<seq>` the count of estimates already
created in the current calendar month plus one, zero-padded to three digits;
two back-to-back (non-concurrent) calls in the same calendar month therefore
produce distinct quotation numbers sharing the same prefix and differing
only in that sequential suffix. -/
theorem createEstimate_sequential_numbers (db : DB) (id1 id2 : String)
    (now1 now2 : JSDate) (ins1 ins2 : InsertEstimate)
    (hv1 : now1.msValid) (hy : now2.year = now1.year)
    (hm : now2.month = now1.month)
    (hdb : ∀ e ∈ db.estimates, e.createdAt.msValid) :
    (createEstimate db id1 now1 ins1).1.quotationNo =
        ("PJ-QTN-" ++ natToString now1.year ++ "-" ++
          padStart (natToString (now1.month + 1)) 2 '0' ++ "-") ++
          padStart (natToString
            ((db.estimates.filter fun e =>
              decide (e.createdAt.year = now1.year ∧
                e.createdAt.month = now1.month)).length + 1)) 3 '0' ∧
      (createEstimate (createEstimate db id1 now1 ins1).2 id2 now2 ins2).1.quotationNo =
        ("PJ-QTN-" ++ natToString now1.year ++ "-" ++
          padStart (natToString (now1.month + 1)) 2 '0' ++ "-") ++
          padStart (natToString
            ((db.estimates.filter fun e =>
              decide (e.createdAt.year = now1.year ∧
                e.createdAt.month = now1.month)).length + 2)) 3 '0' ∧
      (createEstimate db id1 now1 ins1).1.quotationNo ≠
        (createEstimate (createEstimate db id1 now1 ins1).2 id2 now2 ins2).1.quotationNo := by
  have hwin1 : ∀ e ∈ db.estimates, inMonthWindow now1 e.createdAt =
      decide (e.createdAt.year = now1.year ∧ e.createdAt.month = now1.month) :=
    fun e he => bool_eq_of_iff (by simp [inMonthWindow_iff (hdb e he)])
  have hwin2 : ∀ e ∈ db.estimates, inMonthWindow now2 e.createdAt =
      decide (e.createdAt.year = now1.year ∧ e.createdAt.month = now1.month) :=
    fun e he => bool_eq_of_iff (by simp [inMonthWindow_iff (hdb e he), hy, hm])
  have he1 : inMonthWindow now2 (createEstimate db id1 now1 ins1).1.createdAt = true := by
    rw [createEstimate_createdAt]
    exact (inMonthWindow_iff hv1).mpr ⟨hy.symm, hm.symm⟩
  have h1 : (createEstimate db id1 now1 ins1).1.quotationNo =
      ("PJ-QTN-" ++ natToString now1.year ++ "-" ++
        padStart (natToString (now1.month + 1)) 2 '0' ++ "-") ++
        padStart (natToString
          ((db.estimates.filter fun e =>
            decide (e.createdAt.year = now1.year ∧
              e.createdAt.month = now1.month)).length + 1)) 3 '0' := by
    rw [createEstimate_quotationNo, List.filter_congr hwin1]
  have h2 : (createEstimate (createEstimate db id1 now1 ins1).2 id2 now2 ins2).1.quotationNo =
      ("PJ-QTN-" ++ natToString now1.year ++ "-" ++
        padStart (natToString (now1.month + 1)) 2 '0' ++ "-") ++
        padStart (natToString
          ((db.estimates.filter fun e =>
            decide (e.createdAt.year = now1.year ∧
              e.createdAt.month = now1.month)).length + 2)) 3 '0' := by
    rw [createEstimate_quotationNo, createEstimate_estimates,
      List.filter_append, List.length_append, List.filter_congr hwin2, hy, hm]
    congr 2
    simp [List.filter, he1]
  refine ⟨h1, h2, ?_⟩
  rw [h1, h2]
  intro heq
  have := padStart_natToString_inj (string_append_right_inj heq)
  omega

/-- Witness for C3: two calls on an empty store at the first millisecond of
January 2025 produce `…-001` and `…-002`. -/
theorem createEstimate_sequential_numbers_witness :
    (createEstimate emptyDB "e1" ⟨2025, 0, 0⟩
        { customerName := "A", customerPhone := "1", productName := "Ring",
          totalAmount := 0, validUntil := ⟨2025, 1, 0⟩ }).1.quotationNo ≠
      (createEstimate (createEstimate emptyDB "e1" ⟨2025, 0, 0⟩
          { customerName := "A", customerPhone := "1", productName := "Ring",
            totalAmount := 0, validUntil := ⟨2025, 1, 0⟩ }).2 "e2" ⟨2025, 0, 5⟩
        { customerName := "B", customerPhone := "2", productName := "Chain",
          totalAmount := 0, validUntil := ⟨2025, 1, 0⟩ }).1.quotationNo :=
  (createEstimate_sequential_numbers emptyDB "e1" "e2" ⟨2025, 0, 0⟩ ⟨2025, 0, 5⟩
    _ _ (by decide) rfl rfl (by simp [emptyDB])).2.2

/-! ### C4: getHomeSectionItems and deleted products -/

/-- A home-section item showcasing the (soft-deleted) product `p1`. -/
def exItem : HomeSectionItem :=
  { id := "i1", sectionId := "s1", productId := "p1", displayName := none,
    displayPrice := none, displayPriceInr := none, displayPriceBhd := none,
    position := 0, size := "normal", createdAt := 0 }

/-- The section holding `exItem`. -/
def exSection : HomeSection :=
  { id := "s1", title := "Featured", subtitle := none, layoutType := "grid",
    isActive := true, displayOrder := 0, createdAt := 0, updatedAt := 0 }

/-- A store with one section whose single item references a soft-deleted
product. -/
def exDbHome : DB :=
  { users := [], products := [exInactiveProduct], bills := [], estimates := [],
    categories := [], homeSections := [exSection],
    homeSectionItems := [exItem] }

/-- C4 counterexample: the claim that `getHomeSectionItems` excludes items
whose product is soft-deleted fails — the join carries no `isActive`
predicate, so the item referencing the inactive product `p1` is returned
with that product attached. -/
theorem getHomeSectionItems_returns_soft_deleted :
    ¬ ∀ e ∈ getHomeSectionItems exDbHome "s1", e.2.isActive = true := by
  decide

/-- C4 amended: `getHomeSectionItems` returns exactly the section's items
paired with their existing product row — an item whose product row was
hard-removed is silently excluded, but a soft-deleted (`isActive = false`)
product row still joins and is returned. -/
theorem getHomeSectionItems_mem (db : DB) (sectionId : String)
    (item : HomeSectionItem) (p : Product) :
    (item, p) ∈ getHomeSectionItems db sectionId ↔
      item ∈ db.homeSectionItems ∧ item.sectionId = sectionId ∧
        p ∈ db.products ∧ item.productId = p.id := by
  simp only [getHomeSectionItems]
  rw [(List.perm_insertionSort posOrder _).mem_iff, List.mem_filter]
  simp only [List.mem_flatMap, List.mem_map, decide_eq_true_eq]
  constructor
  · rintro ⟨⟨it0, hit0, p0, hp0, heq⟩, hsec⟩
    cases heq
    obtain ⟨hpm, hpd⟩ := List.mem_filter.mp hp0
    exact ⟨hit0, hsec, hpm, of_decide_eq_true hpd⟩
  · rintro ⟨hitem, hsec, hp, hpid⟩
    exact ⟨⟨item, hitem, p, List.mem_filter.mpr ⟨hp, by simp [hpid]⟩, rfl⟩, hsec⟩

/-! ### C1: getCategoriesHierarchy occurrence accounting -/

lemma length_filter_self_nodup {α} [DecidableEq α] {l : List α} (h : l.Nodup)
    (c : α) :
    (l.filter fun x => decide (x = c)).length = if c ∈ l then 1 else 0 := by
  induction l with
  | nil => simp
  | cons x xs ih =>
    rw [List.nodup_cons] at h
    by_cases hx : x = c
    · subst hx
      rw [List.filter_cons_of_pos (by simp), List.length_cons]
      have hnil : (xs.filter fun a => decide (a = x)).length = 0 := by
        rw [List.length_eq_zero, List.filter_eq_nil_iff]
        intro a ha
        simp only [decide_eq_true_eq]
        intro hax
        exact h.1 (hax ▸ ha)
      rw [hnil, if_pos (List.mem_cons_self x xs)]
    · rw [List.filter_cons_of_neg (by simpa using hx), ih h.2]
      have hmem : (c ∈ x :: xs) ↔ (c ∈ xs) := by
        rw [List.mem_cons]
        exact or_iff_right fun hcx => hx hcx.symm
      rw [if_congr hmem rfl rfl]

/-- Number of times a category occurs in the hierarchy result, counting both
root entries and occurrences inside children lists. -/
def hierOccCount (h : List (Category × List Category)) (c : Category) : Nat :=
  (h.filter fun e => decide (e.1 = c)).length +
    (h.map fun e => (e.2.filter fun k => decide (k = c)).length).sum

/-- A root category plus a category whose `parentId` names no existing
category. -/
def exDbHier : DB :=
  { users := [], products := [], bills := [], estimates := [],
    categories :=
      [{ id := "a", name := "Rings", slug := "rings", parentId := none,
         displayOrder := 0, isActive := true, createdAt := 0, updatedAt := 0 },
       { id := "b", name := "Lost", slug := "lost", parentId := some "zzz",
         displayOrder := 1, isActive := true, createdAt := 0, updatedAt := 0 }],
    homeSections := [], homeSectionItems := [] }

/-- C1 counterexample: the claim that every stored category appears exactly
once in `getCategoriesHierarchy()` fails — the category whose `parentId`
names no existing category appears nowhere in the result. -/
theorem getCategoriesHierarchy_loses_category :
    ¬ ∀ c ∈ exDbHier.categories,
      hierOccCount (getCategoriesHierarchy exDbHier) c = 1 := by
  decide

/-- C1 amended: with unique, non-empty ids, a stored category appears in
`getCategoriesHierarchy()` exactly once when its `parentId` is falsy (as a
root) or names a root category (as that root's child), and not at all
otherwise — a category attached to a non-root or to a non-existent parent is
lost. -/
theorem getCategoriesHierarchy_occurrence (db : DB)
    (hnd : (db.categories.map Category.id).Nodup)
    (hne : ∀ k ∈ db.categories, k.id ≠ "")
    (c : Category) (hc : c ∈ db.categories) :
    hierOccCount (getCategoriesHierarchy db) c =
      if jsTruthyStr c.parentId = false then 1
      else if ∃ m ∈ db.categories, jsTruthyStr m.parentId = false ∧
          c.parentId = some m.id then 1
      else 0 := by
  have hperm : (getAllCategories db).Perm db.categories :=
    List.perm_insertionSort _ _
  have hndL : ((getAllCategories db).map Category.id).Nodup :=
    (hperm.map Category.id).nodup_iff.mpr hnd
  have hLnd : (getAllCategories db).Nodup := hndL.of_map
  have hcL : c ∈ getAllCategories db := hperm.mem_iff.mpr hc
  simp only [hierOccCount, getCategoriesHierarchy]
  rw [List.filter_map, List.length_map, List.map_map]
  have hcomp1 : ((fun e : Category × List Category => decide (e.1 = c)) ∘
      fun mainCat => (mainCat, (getAllCategories db).filter fun cat =>
        decide (cat.parentId = some mainCat.id))) =
      fun m => decide (m = c) := rfl
  have hcomp2 : ((fun e : Category × List Category =>
      (e.2.filter fun k => decide (k = c)).length) ∘
      fun mainCat => (mainCat, (getAllCategories db).filter fun cat =>
        decide (cat.parentId = some mainCat.id))) =
      fun m => (((getAllCategories db).filter fun cat =>
        decide (cat.parentId = some m.id)).filter fun k =>
          decide (k = c)).length := rfl
  rw [hcomp1, hcomp2]
  have hmains_nd : ((getAllCategories db).filter fun cat =>
      !(jsTruthyStr cat.parentId)).Nodup := hLnd.filter _
  have hsub : ((getAllCategories db).filter fun cat =>
      !(jsTruthyStr cat.parentId)).Sublist (getAllCategories db) :=
    List.filter_sublist _
  have hmains_ndid : (((getAllCategories db).filter fun cat =>
      !(jsTruthyStr cat.parentId)).map Category.id).Nodup :=
    List.Nodup.sublist (List.Sublist.map Category.id hsub) hndL
  rw [length_filter_self_nodup hmains_nd c]
  have hinner : ∀ m ∈ (getAllCategories db).filter
      (fun cat => !(jsTruthyStr cat.parentId)),
      (((getAllCategories db).filter fun cat =>
        decide (cat.parentId = some m.id)).filter fun k =>
          decide (k = c)).length =
        if c.parentId = some m.id then (1 : Nat) else 0 := by
    intro m _
    rw [length_filter_self_nodup (hLnd.filter _) c]
    by_cases hcm : c.parentId = some m.id
    · rw [if_pos (List.mem_filter.mpr ⟨hcL, by simp [hcm]⟩), if_pos hcm]
    · rw [if_neg ?hno, if_neg hcm]
      case hno =>
        intro hmem
        exact hcm (of_decide_eq_true (List.mem_filter.mp hmem).2)
  have hmapnd : (((getAllCategories db).filter
      (fun cat => !(jsTruthyStr cat.parentId))).map
        (fun m => some m.id) : List (Option String)).Nodup := by
    have := hmains_ndid.map (Option.some_injective String)
    rwa [List.map_map] at this
  rw [sum_map_eq_length_filter _ _ (fun m => decide (some m.id = c.parentId))
      (fun m hm => by rw [hinner m hm]; simp [eq_comm])]
  by_cases hroot : jsTruthyStr c.parentId = false
  · rw [if_pos hroot,
      if_pos (List.mem_filter.mpr ⟨hcL, by simp [hroot]⟩)]
    have hzero : ((getAllCategories db).filter
        (fun cat => !(jsTruthyStr cat.parentId))).filter
        (fun m => decide (some m.id = c.parentId)) = [] := by
      rw [List.filter_eq_nil_iff]
      intro m hmm
      simp only [decide_eq_true_eq]
      intro hms
      cases hp : c.parentId with
      | none => rw [hp] at hms; cases hms
      | some s =>
        rw [hp] at hms
        injection hms with hms
        rw [hp] at hroot
        have hs : s = "" := by simpa [jsTruthyStr] using hroot
        exact hne m (hperm.mem_iff.mp (List.mem_filter.mp hmm).1)
          (hms.trans hs)
    rw [hzero]
    rfl
  · have hcnotmain : c ∉ (getAllCategories db).filter
        (fun cat => !(jsTruthyStr cat.parentId)) := fun hmem =>
      hroot (by simpa using (List.mem_filter.mp hmem).2)
    rw [if_neg hroot, if_neg hcnotmain, Nat.zero_add]
    by_cases hex : ∃ m ∈ db.categories, jsTruthyStr m.parentId = false ∧
        c.parentId = some m.id
    · obtain ⟨m, hmdb, hmroot, hpm⟩ := hex
      rw [if_pos ⟨m, hmdb, hmroot, hpm⟩]
      have hmmains : m ∈ (getAllCategories db).filter
          (fun cat => !(jsTruthyStr cat.parentId)) :=
        List.mem_filter.mpr ⟨hperm.mem_iff.mpr hmdb, by simp [hmroot]⟩
      have hfk : ((getAllCategories db).filter
          (fun cat => !(jsTruthyStr cat.parentId))).filter
          (fun x => decide (some x.id = some m.id)) = [m] :=
        filter_key_of_nodup (k := fun y => some y.id) hmapnd hmmains
      have hcong : ((getAllCategories db).filter
          (fun cat => !(jsTruthyStr cat.parentId))).filter
          (fun x => decide (some x.id = c.parentId)) =
          ((getAllCategories db).filter
          (fun cat => !(jsTruthyStr cat.parentId))).filter
          (fun x => decide (some x.id = some m.id)) := by
        rw [hpm]
      rw [hcong, hfk]
      rfl
    · rw [if_neg hex]
      have hzero : ((getAllCategories db).filter
          (fun cat => !(jsTruthyStr cat.parentId))).filter
          (fun x => decide (some x.id = c.parentId)) = [] := by
        rw [List.filter_eq_nil_iff]
        intro x hx
        simp only [decide_eq_true_eq]
        intro hxs
        exact hex ⟨x, hperm.mem_iff.mp (List.mem_filter.mp hx).1,
          by simpa using (List.mem_filter.mp hx).2, hxs.symm⟩
      rw [hzero]
      rfl

/-- Witness for C1 (amended): in the two-category store, the root appears
exactly once and the orphaned category zero times. -/
theorem getCategoriesHierarchy_occurrence_witness :
    hierOccCount (getCategoriesHierarchy exDbHier)
        { id := "a", name := "Rings", slug := "rings", parentId := none,
          displayOrder := 0, isActive := true, createdAt := 0,
          updatedAt := 0 } = 1 ∧
      hierOccCount (getCategoriesHierarchy exDbHier)
        { id := "b", name := "Lost", slug := "lost", parentId := some "zzz",
          displayOrder := 1, isActive := true, createdAt := 0,
          updatedAt := 0 } = 0 := by
  constructor
  · have h := getCategoriesHierarchy_occurrence exDbHier (by decide) (by decide)
      { id := "a", name := "Rings", slug := "rings", parentId := none,
        displayOrder := 0, isActive := true, createdAt := 0, updatedAt := 0 }
      (by decide)
    rwa [if_pos (by decide)] at h
  · have h := getCategoriesHierarchy_occurrence exDbHier (by decide) (by decide)
      { id := "b", name := "Lost", slug := "lost", parentId := some "zzz",
        displayOrder := 1, isActive := true, createdAt := 0, updatedAt := 0 }
      (by decide)
    rwa [if_neg (by decide), if_neg (by decide)] at h

end Storage
